import Mathlib

/-!
Shallow embedding of the VS Code extension `gitcommiter` (src/extension.ts).

The reproducible core of the extension is the subprocess orchestration in
`runPythonScript` (stdout JSON extraction and parsing, exit-code handling,
cancellation) and the outcome dispatch in `generateCommitMessage`
(configuration defaulting, argument construction, success/failure notices).
JavaScript strings are modelled as Lean `String`s viewed through their
character list (`String.data`); the claims involve only BMP characters, where
JS code-unit indices and character indices coincide.  JS numbers are modelled
as `ℚ`: the source performs no arithmetic on them, only truthiness tests
(`x || default`, exactly "replace 0 by the default") and `toString`, rendered
below by `decStr`, which agrees with JS `Number.prototype.toString` on the
finite decimals the configuration surface uses.
-/

namespace GitCommiter

/-! ### JS string primitives -/

/-- Character-level model of `String.prototype.lastIndexOf` for a single
character: index of the last occurrence, `-1` when absent.
`pos` is the index of the head of `cs`; `best` the best index found so far. -/
def lastIdxAux : List Char → Char → Nat → Int → Int
  | [], _, _, best => best
  | x :: t, c, pos, best => lastIdxAux t c (pos + 1) (if x = c then (pos : Int) else best)

/-- Model of `s.lastIndexOf(c)`. -/
def jsLastIndexOf (s : String) (c : Char) : Int :=
  lastIdxAux s.data c 0 (-1)

/-- Model of `s.substring(i)`: JS clamps a negative start index to `0`, which
is exactly `Int.toNat`. -/
def jsSubstringFrom (s : String) (i : Int) : String :=
  String.mk (s.data.drop i.toNat)

/-- Leading-run test on character lists: does the first list start `hasPre`
the second, i.e. is it an initial segment of it. -/
def hasPre : List Char → List Char → Bool
  | [], _ => true
  | _ :: _, [] => false
  | s :: ss, x :: xs => s = x && hasPre ss xs

/-- Contiguous containment: the second list occurs somewhere inside the
first. -/
def hasSub : List Char → List Char → Bool
  | [], sub => hasPre sub []
  | x :: t, sub => hasPre sub (x :: t) || hasSub t sub

/-- Model of `s.includes(sub)`. -/
def strIncludes (s sub : String) : Bool :=
  hasSub s.data sub.data

/-! ### JSON values and `JSON.parse`

`JSON.parse` is modelled by a fuel-indexed recursive-descent parser over the
character list.  Coverage: objects, arrays, strings (with the JSON escapes;
`\uXXXX` restricted to non-surrogate scalars), numbers (parsed exactly into
`ℚ`; double rounding is not modelled, which is exact for the modest literals
the contract uses), `true`/`false`/`null`, with the JSON whitespace rules and
rejection of trailing input. -/

inductive Json where
  | null
  | bool (b : Bool)
  | num (q : ℚ)
  | str (s : String)
  | arr (items : List Json)
  | obj (fields : List (String × Json))

/-- JSON whitespace. -/
def isJsonWs (c : Char) : Bool :=
  c = ' ' || c = '\t' || c = '\n' || c = '\r'

def skipWs (cs : List Char) : List Char :=
  cs.dropWhile isJsonWs

def digitVal (c : Char) : Nat := c.toNat - '0'.toNat

def digitsToNat (ds : List Char) : Nat :=
  ds.foldl (fun a c => a * 10 + digitVal c) 0

def hexVal (c : Char) : Option Nat :=
  if '0' ≤ c ∧ c ≤ '9' then some (c.toNat - '0'.toNat)
  else if 'a' ≤ c ∧ c ≤ 'f' then some (c.toNat - 'a'.toNat + 10)
  else if 'A' ≤ c ∧ c ≤ 'F' then some (c.toNat - 'A'.toNat + 10)
  else none

/-- Body of a JSON string literal, after the opening quote.  Returns the
decoded characters and the input following the closing quote. -/
def parseStrBody : List Char → Option (List Char × List Char)
  | [] => none
  | '"' :: rest => some ([], rest)
  | '\\' :: '"' :: rest => (parseStrBody rest).map (fun p => ('"' :: p.1, p.2))
  | '\\' :: '\\' :: rest => (parseStrBody rest).map (fun p => ('\\' :: p.1, p.2))
  | '\\' :: '/' :: rest => (parseStrBody rest).map (fun p => ('/' :: p.1, p.2))
  | '\\' :: 'b' :: rest => (parseStrBody rest).map (fun p => ('\x08' :: p.1, p.2))
  | '\\' :: 'f' :: rest => (parseStrBody rest).map (fun p => ('\x0c' :: p.1, p.2))
  | '\\' :: 'n' :: rest => (parseStrBody rest).map (fun p => ('\n' :: p.1, p.2))
  | '\\' :: 'r' :: rest => (parseStrBody rest).map (fun p => ('\r' :: p.1, p.2))
  | '\\' :: 't' :: rest => (parseStrBody rest).map (fun p => ('\t' :: p.1, p.2))
  | '\\' :: 'u' :: h1 :: h2 :: h3 :: h4 :: rest =>
    match hexVal h1, hexVal h2, hexVal h3, hexVal h4 with
    | some a, some b, some c, some d =>
      let v := ((a * 16 + b) * 16 + c) * 16 + d
      if h : v < 0xd800 then
        (parseStrBody rest).map (fun p => (Char.ofNatAux v (Or.inl h) :: p.1, p.2))
      else if h' : 0xdfff < v ∧ v < 0x110000 then
        (parseStrBody rest).map (fun p => (Char.ofNatAux v (Or.inr h') :: p.1, p.2))
      else none
    | _, _, _, _ => none
  | '\\' :: _ => none
  | c :: rest =>
    if c.toNat < 32 then none
    else (parseStrBody rest).map (fun p => (c :: p.1, p.2))

/-- JSON number, per the grammar
`-?(0|[1-9][0-9]*)(\.[0-9]+)?([eE][+-]?[0-9]+)?`, evaluated exactly in `ℚ`. -/
def parseNum (cs : List Char) : Option (ℚ × List Char) :=
  let signed : Bool × List Char :=
    match cs with
    | '-' :: t => (true, t)
    | _ => (false, cs)
  let ip := signed.2.takeWhile Char.isDigit
  let cs1 := signed.2.dropWhile Char.isDigit
  if ip.isEmpty then none
  else if 1 < ip.length ∧ ip.head? = some '0' then none
  else
    let fracStep : Option (List Char × List Char) :=
      match cs1 with
      | '.' :: t =>
        let ds := t.takeWhile Char.isDigit
        if ds.isEmpty then none else some (ds, t.dropWhile Char.isDigit)
      | _ => some ([], cs1)
    match fracStep with
    | none => none
    | some (fr, cs2) =>
      let expStep : Option (Int × List Char) :=
        match cs2 with
        | 'e' :: t =>
          let es : Bool × List Char :=
            match t with
            | '+' :: u => (false, u)
            | '-' :: u => (true, u)
            | _ => (false, t)
          let ds := es.2.takeWhile Char.isDigit
          if ds.isEmpty then none
          else
            let e : Int := (digitsToNat ds : Int)
            some (if es.1 then -e else e, es.2.dropWhile Char.isDigit)
        | 'E' :: t =>
          let es : Bool × List Char :=
            match t with
            | '+' :: u => (false, u)
            | '-' :: u => (true, u)
            | _ => (false, t)
          let ds := es.2.takeWhile Char.isDigit
          if ds.isEmpty then none
          else
            let e : Int := (digitsToNat ds : Int)
            some (if es.1 then -e else e, es.2.dropWhile Char.isDigit)
        | _ => some (0, cs2)
      match expStep with
      | none => none
      | some (ex, cs3) =>
        let m : Int := (digitsToNat ip * 10 ^ fr.length + digitsToNat fr : Nat)
        let m := if signed.1 then -m else m
        let mag : ℚ :=
          if 0 ≤ ex then mkRat (m * 10 ^ ex.toNat) (10 ^ fr.length)
          else mkRat m (10 ^ fr.length * 10 ^ (-ex).toNat)
        some (mag, cs3)

mutual

/-- One JSON value, leading whitespace allowed. -/
def parseVal : Nat → List Char → Option (Json × List Char)
  | 0, _ => none
  | Nat.succ fuel, cs =>
    match skipWs cs with
    | '\x7b' :: rest => (parseFieldsStart fuel rest).map (fun p => (Json.obj p.1, p.2))
    | '[' :: rest => (parseItemsStart fuel rest).map (fun p => (Json.arr p.1, p.2))
    | '"' :: rest => (parseStrBody rest).map (fun p => (Json.str (String.mk p.1), p.2))
    | 't' :: 'r' :: 'u' :: 'e' :: rest => some (Json.bool true, rest)
    | 'f' :: 'a' :: 'l' :: 's' :: 'e' :: rest => some (Json.bool false, rest)
    | 'n' :: 'u' :: 'l' :: 'l' :: rest => some (Json.null, rest)
    | other => (parseNum other).map (fun p => (Json.num p.1, p.2))

/-- One `"key": value` pair. -/
def parsePair : Nat → List Char → Option ((String × Json) × List Char)
  | 0, _ => none
  | Nat.succ fuel, cs =>
    match skipWs cs with
    | '"' :: rest =>
      match parseStrBody rest with
      | none => none
      | some (key, afterKey) =>
        match skipWs afterKey with
        | ':' :: afterColon =>
          (parseVal fuel afterColon).map (fun p => ((String.mk key, p.1), p.2))
        | _ => none
    | _ => none

/-- Object fields, positioned just after the opening brace. -/
def parseFieldsStart : Nat → List Char → Option (List (String × Json) × List Char)
  | 0, _ => none
  | Nat.succ fuel, cs =>
    match skipWs cs with
    | '\x7d' :: rest => some ([], rest)
    | _ =>
      match parsePair fuel cs with
      | none => none
      | some (p, rest) =>
        (parseFieldsMore fuel rest).map (fun q => (p :: q.1, q.2))

/-- Object fields after at least one pair: `, pair` or the closing brace. -/
def parseFieldsMore : Nat → List Char → Option (List (String × Json) × List Char)
  | 0, _ => none
  | Nat.succ fuel, cs =>
    match skipWs cs with
    | '\x7d' :: rest => some ([], rest)
    | ',' :: rest =>
      match parsePair fuel rest with
      | none => none
      | some (p, rest2) =>
        (parseFieldsMore fuel rest2).map (fun q => (p :: q.1, q.2))
    | _ => none

/-- Array items, positioned just after `[`. -/
def parseItemsStart : Nat → List Char → Option (List Json × List Char)
  | 0, _ => none
  | Nat.succ fuel, cs =>
    match skipWs cs with
    | ']' :: rest => some ([], rest)
    | _ =>
      match parseVal fuel cs with
      | none => none
      | some (v, rest) =>
        (parseItemsMore fuel rest).map (fun q => (v :: q.1, q.2))

/-- Array items after at least one item: `, item` or `]`. -/
def parseItemsMore : Nat → List Char → Option (List Json × List Char)
  | 0, _ => none
  | Nat.succ fuel, cs =>
    match skipWs cs with
    | ']' :: rest => some ([], rest)
    | ',' :: rest =>
      match parseVal fuel rest with
      | none => none
      | some (v, rest2) =>
        (parseItemsMore fuel rest2).map (fun q => (v :: q.1, q.2))
    | _ => none

end

/-- Model of `JSON.parse(s)`: one value, whitespace allowed on either side, the whole
input consumed.  The fuel `2 * length + 4` dominates the recursion depth:
every two fuel levels consume at least one input character. -/
def jsonParse (s : String) : Option Json :=
  match parseVal (2 * s.data.length + 4) s.data with
  | some (v, rest) => if skipWs rest = [] then some v else none
  | none => none

/-! ### JS number rendering

`Number.prototype.toString` prints the shortest decimal that round-trips the
double.  On the finite decimals this contract manipulates (`0.3`, `100`, exit
codes) that is exactly the plain decimal expansion, rendered here from `ℚ`. -/

/-- Smallest `k ≤ 20` with `d ∣ 10 ^ k`, i.e. the number of fraction digits
needed for an exact decimal expansion. -/
def pow10Exp (d : Nat) : Option Nat :=
  (List.range 21).find? (fun k => 10 ^ k % d = 0)

/-- Pad a digit string on the left with zeros to width `k`. -/
def padZeros (s : String) (k : Nat) : String :=
  String.mk (List.replicate (k - s.data.length) '0') ++ s

/-- Decimal rendering of a rational; agrees with JS `toString` on finite
decimals of at most 20 fraction digits (the reduced denominator forces the
minimal `k`, so no trailing fraction zeros arise).  Other rationals cannot
reach this function from the modelled code paths. -/
def decStr (q : ℚ) : String :=
  let sign := if q < 0 then "-" else ""
  let n := q.num.natAbs
  match pow10Exp q.den with
  | some k =>
    if k = 0 then sign ++ toString n
    else
      let scaled := n * 10 ^ k / q.den
      sign ++ toString (scaled / 10 ^ k) ++ "." ++ padZeros (toString (scaled % 10 ^ k)) k
  | none => sign ++ toString n ++ "/" ++ toString q.den

/-! ### The Result contract (interface `CommitResult`)

`JSON.parse` returns an arbitrary JSON value; the TypeScript cast
`const result: CommitResult = JSON.parse(...)` performs no validation, so the
fields are modelled as raw optional JSON values, read off by JS property
access (duplicate keys in `JSON.parse` resolve to the last occurrence;
property access on a non-object primitive yields `undefined`, i.e. `none`). -/

structure CommitResult where
  commit_message : Option Json
  success : Option Json
  error : Option Json

/-- Last-occurrence field lookup, matching `JSON.parse` duplicate-key
semantics. -/
def lookupField (fields : List (String × Json)) (k : String) : Option Json :=
  (fields.reverse.find? (fun p => p.1 = k)).map Prod.snd

/-- Property reads of the `CommitResult` cast: on an object, field lookup;
on a non-null primitive, `undefined` (`none`) for each field.  The `null`
result — where the property access itself throws — is intercepted by
`dispatchEffects` before this function is consulted, so the catch-all row
is only ever applied to non-null values. -/
def CommitResult.ofJson : Json → CommitResult
  | Json.obj fs => ⟨lookupField fs "commit_message", lookupField fs "success", lookupField fs "error"⟩
  | _ => ⟨none, none, none⟩

/-- JS truthiness of a possibly-absent JSON value: `undefined`, `null`,
`false`, `0` and `""` are falsy, everything else truthy. -/
def truthy : Option Json → Bool
  | none => false
  | some Json.null => false
  | some (Json.bool b) => b
  | some (Json.num q) => if q = 0 then false else true
  | some (Json.str s) => if s = "" then false else true
  | some (Json.arr _) => true
  | some (Json.obj _) => true

/-- Test for the JSON `null` value: the one resolved result on which the
property access `result.success` (line 157) throws a `TypeError` instead of
yielding `undefined`. -/
def Json.isNull : Json → Bool
  | Json.null => true
  | _ => false

mutual

/-- JS string coercion (template literal / `String(v)`): strings unchanged,
booleans and `null` by name, numbers by `decStr`, arrays by the
comma-join of `Array.prototype.toString`, plain objects as
`[object Object]`. -/
def jsDisplay : Json → String
  | Json.str s => s
  | Json.bool true => "true"
  | Json.bool false => "false"
  | Json.null => "null"
  | Json.num q => decStr q
  | Json.arr items => jsDisplayItems items
  | Json.obj _ => "[object Object]"

/-- Comma-join of `Array.prototype.toString`: elements coerced recursively,
except that a `null` element renders as the empty string. -/
def jsDisplayItems : List Json → String
  | [] => ""
  | [Json.null] => ""
  | [x] => jsDisplay x
  | Json.null :: xs => "," ++ jsDisplayItems xs
  | x :: xs => jsDisplay x ++ "," ++ jsDisplayItems xs

end

/-! ### `runPythonScript` (extension.ts lines 193-233) -/

/-- The rejection reasons of the `runPythonScript` promise, one constructor
per `reject` site. -/
inductive ScriptError where
  | parseFailure (stdout : String)
  | nonZeroExit (code : Int) (stderr : String)
  | cancelled
  | spawnFailure (msg : String)

/-- The `Error` message each rejection carries. -/
def ScriptError.message : ScriptError → String
  | ScriptError.parseFailure out => "Failed to parse Python script output: " ++ out
  | ScriptError.nonZeroExit code err =>
    "Python script failed with code " ++ toString code ++ ": " ++ err
  | ScriptError.cancelled => "Operation was cancelled"
  | ScriptError.spawnFailure m => "Failed to start Python script: " ++ m

/-- Extraction rule of lines 217-218: the substring starting at the final
opening-brace occurrence of the captured stdout. -/
def extractJsonPart (stdout : String) : String :=
  jsSubstringFrom stdout (jsLastIndexOf stdout '\x7b')

/-- The `close` handler: on exit code 0, extract and `JSON.parse` the brace
suffix, resolving with the parsed value or rejecting on a parse failure; on
any other code, reject with the exit code and captured stderr, without
touching stdout. -/
def runPythonScriptClose (code : Int) (stdout stderr : String) : Except ScriptError Json :=
  if code = 0 then
    match jsonParse (extractJsonPart stdout) with
    | some v => Except.ok v
    | none => Except.error (ScriptError.parseFailure stdout)
  else Except.error (ScriptError.nonZeroExit code stderr)

/-- Promise settlement of `runPythonScript`: a cancellation requested before
process exit runs `token.onCancellationRequested` first, which kills the
process and rejects; the resolve/reject of the later `close` callback are then
no-ops (a promise settles once).  Otherwise the `close` handler settles it. -/
def runPythonScriptOutcome (cancelledBeforeExit : Bool) (code : Int)
    (stdout stderr : String) : Except ScriptError Json :=
  if cancelledBeforeExit then Except.error ScriptError.cancelled
  else runPythonScriptClose code stdout stderr

/-! ### `generateCommitMessage` (extension.ts lines 107-191)

Modelled as the list of observable side effects of one invocation, in order.
The configuration reads and the behaviour of the process are the inputs. -/

inductive Notice where
  | info (msg : String)
  | warning (msg : String)
  | error (msg : String)

inductive Effect where
  | spawnProcess (cmd : String) (args : List String)
  | setCommitInput (text : String)
  | copyClipboard (text : String)
  | notice (n : Notice)

/-- The `autoCommitMessages` settings, as read by `config.get`; `none` is an
unset setting (`undefined`). -/
structure ExtConfig where
  googleApiKey : Option String
  pythonPath : Option String
  model : Option String
  temperature : Option ℚ
  maxTokens : Option ℚ

/-- Ambient facts of one invocation: workspace, git extension state, and what
the spawned process does. -/
structure InvocationEnv where
  hasWorkspaceFolder : Bool
  workspacePath : String
  extensionPath : String
  gitApiAvailable : Bool
  repoCount : Nat
  cancelledBeforeExit : Bool
  exitCode : Int
  stdout : String
  stderr : String

/-- Defaulting rule `config.get<string>(k) || d`: `undefined` and `""` are
falsy. -/
def jsOrString (v : Option String) (d : String) : String :=
  match v with
  | none => d
  | some s => if s = "" then d else s

/-- Defaulting rule `config.get<number>(k) || d`: `undefined` and `0` are
falsy. -/
def jsOrNum (v : Option ℚ) (d : ℚ) : ℚ :=
  match v with
  | none => d
  | some q => if q = 0 then d else q

/-- The argument vector of lines 137-145.  `path.join` is modelled as POSIX
segment concatenation. -/
def buildArgs (cfg : ExtConfig) (env : InvocationEnv) (apiKey : String) : List String :=
  [ env.extensionPath ++ "/py/commit_generator.py",
    env.workspacePath,
    "--api-key", apiKey,
    "--model", jsOrString cfg.model "gemini-1.5-flash",
    "--temperature", decStr (jsOrNum cfg.temperature (mkRat 3 10)),
    "--max-tokens", decStr (jsOrNum cfg.maxTokens 100),
    "--json" ]

/-- Lines 160-174: write into the input box of the first repository when the git
API is reachable and tracks a repository, else fall back to the clipboard. -/
def successEffects (env : InvocationEnv) (msg : String) : List Effect :=
  if env.gitApiAvailable ∧ 0 < env.repoCount then
    [ Effect.setCommitInput msg,
      Effect.notice (Notice.info ("Generated: \"" ++ msg ++ "\"")) ]
  else
    [ Effect.copyClipboard msg,
      Effect.notice (Notice.info ("Generated (copied to clipboard): \"" ++ msg ++ "\"")) ]

/-- Lines 175-181: `result.error || default`, then
`errorMessage.includes('No changes detected')` choosing warning over error
severity.  `includes` exists on strings (substring test) and on arrays
(strict-equality element test of `Array.prototype.includes`, which against a
string matches exactly string elements equal to it); calling it on any other
truthy value (number, `true`, plain object) throws a `TypeError`, modelled as
the error case carrying the message of that `TypeError`. -/
def failureNotice (err : Option Json) : Except String Notice :=
  match (if truthy err then err.getD Json.null
         else Json.str "Failed to generate commit message") with
  | Json.str errorMessage =>
    Except.ok (if strIncludes errorMessage "No changes detected" then
        Notice.warning "No changes detected to generate commit message."
      else Notice.error ("Error: " ++ errorMessage))
  | Json.arr items =>
    Except.ok (if items.any (fun x =>
          match x with
          | Json.str s => s = "No changes detected"
          | _ => false) then
        Notice.warning "No changes detected to generate commit message."
      else Notice.error ("Error: " ++ jsDisplayItems items))
  | _ => Except.error "errorMessage.includes is not a function"

/-- Success/failure dispatch of a resolved result (lines 157-182): either
its effect list, or the message of a `TypeError` the dispatch throws — the
property access `result.success` on a `null` result at line 157, or the
`errorMessage.includes` call on a truthy non-string, non-array error field
at line 177.  A thrown `TypeError` propagates to the outer catch exactly
like a rejection.  (`TypeError` message texts follow current V8.) -/
def dispatchEffects (env : InvocationEnv) (v : Json) : Except String (List Effect) :=
  if v.isNull then
    Except.error "Cannot read properties of null (reading 'success')"
  else
    let result := CommitResult.ofJson v
    if truthy result.success && truthy result.commit_message then
      Except.ok (successEffects env (jsDisplay (result.commit_message.getD Json.null)))
    else
      match failureNotice result.error with
      | Except.ok n => Except.ok [Effect.notice n]
      | Except.error msg => Except.error msg

/-- Consumption of the settled `runPythonScript` promise (lines 149-190).
A rejected promise makes the `await` throw out of the `withProgress` callback
into the outer `catch` (line 185), which shows an error notice; the
`isCancellationRequested` early-return on line 151 is unreachable for a
pre-exit cancellation because that path rejects rather than resolves.  A
resolved promise routes through `dispatchEffects`, whose own thrown
`TypeError`s land in the same outer catch. -/
def outcomeEffects (env : InvocationEnv) (outcome : Except ScriptError Json) : List Effect :=
  match outcome with
  | Except.error e =>
    [Effect.notice (Notice.error ("Failed to generate commit message: " ++ e.message))]
  | Except.ok v =>
    match dispatchEffects env v with
    | Except.ok effs => effs
    | Except.error msg =>
      [Effect.notice (Notice.error ("Failed to generate commit message: " ++ msg))]

/-- One invocation of `generateCommitMessage`, as its ordered effect list:
the workspace and credential preflight checks, then the spawn and the
consumption of the process outcome. -/
def generateCommitMessage (cfg : ExtConfig) (env : InvocationEnv) : List Effect :=
  if env.hasWorkspaceFolder = false then
    [Effect.notice (Notice.error "No workspace folder found. Please open a project.")]
  else
    match cfg.googleApiKey with
    | none =>
      [Effect.notice (Notice.error "Google AI API Key is not configured. Please set it in settings.")]
    | some apiKey =>
      if apiKey = "" then
        [Effect.notice (Notice.error "Google AI API Key is not configured. Please set it in settings.")]
      else
        let pythonPath := jsOrString cfg.pythonPath "python"
        let args := buildArgs cfg env apiKey
        Effect.spawnProcess pythonPath args ::
          outcomeEffects env
            (runPythonScriptOutcome env.cancelledBeforeExit env.exitCode env.stdout env.stderr)

/-! ### Helper lemmas -/

theorem lastIdxAux_not_mem {c : Char} {t : List Char} (h : c ∉ t) :
    ∀ (pos : Nat) (best : Int), lastIdxAux t c pos best = best := by
  induction t with
  | nil => intro pos best; rfl
  | cons x t ih =>
    intro pos best
    rw [List.mem_cons, not_or] at h
    rw [lastIdxAux, if_neg (fun e => h.1 e.symm), ih h.2]

theorem lastIdxAux_head {c : Char} {t : List Char} (h : c ∉ t) (pos : Nat) (best : Int) :
    lastIdxAux (c :: t) c pos best = (pos : Int) := by
  rw [lastIdxAux, if_pos rfl, lastIdxAux_not_mem h]

theorem lastIdxAux_append (s : List Char) (c : Char) :
    ∀ (p : List Char) (pos : Nat) (best : Int),
      lastIdxAux (p ++ s) c pos best =
        lastIdxAux s c (pos + p.length) (lastIdxAux p c pos best) := by
  intro p
  induction p with
  | nil => intro pos best; simp [lastIdxAux]
  | cons x p ih =>
    intro pos best
    show lastIdxAux (p ++ s) c (pos + 1) (if x = c then (pos : Int) else best) =
      lastIdxAux s c (pos + (p.length + 1))
        (lastIdxAux p c (pos + 1) (if x = c then (pos : Int) else best))
    have harith : pos + 1 + p.length = pos + (p.length + 1) := by omega
    rw [ih, harith]

theorem string_data_append (p j : String) : (p ++ j).data = p.data ++ j.data := rfl

/-- When the trailing part of the stream begins with the only opening brace
that occurs after the prefix, the substring-from-last-brace extraction
recovers exactly that trailing part. -/
theorem extractJsonPart_append (p : String) {j : String}
    (hhead : j.data.head? = some '\x7b')
    (hcount : j.data.count '\x7b' = 1) :
    extractJsonPart (p ++ j) = j := by
  obtain ⟨t, ht⟩ : ∃ t, j.data = '\x7b' :: t := by
    cases hj : j.data with
    | nil => rw [hj] at hhead; exact absurd hhead (by simp)
    | cons a t =>
      rw [hj] at hhead
      simp only [List.head?_cons, Option.some.injEq] at hhead
      exact ⟨t, by rw [hhead]⟩
  have hnot : '\x7b' ∉ t := by
    rw [ht] at hcount
    rw [List.count_cons_self] at hcount
    have : t.count '\x7b' = 0 := by omega
    exact (List.count_eq_zero).mp this
  rw [extractJsonPart, jsLastIndexOf, string_data_append, ht, lastIdxAux_append,
    lastIdxAux_head hnot]
  rw [jsSubstringFrom, string_data_append, ht]
  have hto : ((0 + p.data.length : Nat) : Int).toNat = p.data.length := by omega
  rw [hto, List.drop_left, ← ht]

theorem hasPre_append {sub l : List Char} (r : List Char) (h : hasPre sub l = true) :
    hasPre sub (l ++ r) = true := by
  induction sub generalizing l with
  | nil => rfl
  | cons s ss ih =>
    cases l with
    | nil => simp [hasPre] at h
    | cons x xs =>
      simp only [hasPre, Bool.and_eq_true, decide_eq_true_eq] at h
      simp only [List.cons_append, hasPre, Bool.and_eq_true, decide_eq_true_eq]
      exact ⟨h.1, ih h.2⟩

theorem hasSub_append_left (r : List Char) {l sub : List Char}
    (h : hasSub l sub = true) : hasSub (l ++ r) sub = true := by
  induction l with
  | nil =>
    cases sub with
    | nil =>
      cases r with
      | nil => rfl
      | cons y ys => simp [hasSub, hasPre]
    | cons s ss => simp [hasSub, hasPre] at h
  | cons x t ih =>
    simp only [hasSub, Bool.or_eq_true] at h
    simp only [List.cons_append, hasSub, Bool.or_eq_true]
    rcases h with h | h
    · exact Or.inl (hasPre_append r h)
    · exact Or.inr (ih h)

theorem strIncludes_append_left (a b sub : String) (h : strIncludes a sub = true) :
    strIncludes (a ++ b) sub = true := by
  rw [strIncludes, string_data_append]
  exact hasSub_append_left b.data h

/-- Spawn-and-dispatch shape of a fully preflighted invocation: with a
workspace open and a non-empty credential configured, the invocation spawns
the generator with the built argument vector and then consumes the settled
promise. -/
theorem generateCommitMessage_run (cfg : ExtConfig) (env : InvocationEnv) (k : String)
    (hws : env.hasWorkspaceFolder = true)
    (hkey : cfg.googleApiKey = some k) (hk : k ≠ "") :
    generateCommitMessage cfg env =
      Effect.spawnProcess (jsOrString cfg.pythonPath "python") (buildArgs cfg env k) ::
        outcomeEffects env
          (runPythonScriptOutcome env.cancelledBeforeExit env.exitCode env.stdout env.stderr) := by
  rw [generateCommitMessage, hws, hkey]
  simp [hk]

/-! ### The claims -/

/-- C1 (amended): for every clean-exit run whose captured stdout is arbitrary
text followed by a trailing well-formed JSON object, provided the trailing
object text contains no opening brace beyond its leading one, the controller
extracts exactly that object by taking the substring at the final
opening-brace occurrence and parses it successfully into the Result. -/
theorem C1_trailing_object (p j stderr : String) (v : Json)
    (hparse : jsonParse j = some v)
    (hhead : j.data.head? = some '\x7b')
    (hcount : j.data.count '\x7b' = 1) :
    runPythonScriptClose 0 (p ++ j) stderr = Except.ok v := by
  rw [runPythonScriptClose, if_pos rfl, extractJsonPart_append p hhead hcount, hparse]

/-- C1 witness: the spec example — diagnostic text `Cloning...` followed by
the success payload is extracted and parsed into exactly that object. -/
theorem C1_trailing_object_witness :
    runPythonScriptClose 0
        ("Cloning...\n" ++ "\x7b\"success\": true, \"commit_message\": \"feat: add parser\"\x7d")
        "" =
      Except.ok (Json.obj
        [("success", Json.bool true), ("commit_message", Json.str "feat: add parser")]) :=
  C1_trailing_object "Cloning...\n"
    "\x7b\"success\": true, \"commit_message\": \"feat: add parser\"\x7d" "" _
    rfl rfl (by decide)

/-- C1 counterexample: the claim as stated fails for a trailing well-formed
JSON object containing an interior opening brace (here inside a string
value): the prefix `log` is non-JSON, the trailing object parses on its own,
yet the controller rejects with a parse failure instead of extracting it,
because the final opening-brace occurrence lies inside the object. -/
theorem C1_counterexample :
    jsonParse "\x7b\"success\": true, \"commit_message\": \"a\x7bb\"\x7d" =
      some (Json.obj
        [("success", Json.bool true), ("commit_message", Json.str "a\x7bb")]) ∧
    jsonParse "log\n" = none ∧
    runPythonScriptClose 0
        ("log\n" ++ "\x7b\"success\": true, \"commit_message\": \"a\x7bb\"\x7d") "" =
      Except.error (ScriptError.parseFailure
        ("log\n" ++ "\x7b\"success\": true, \"commit_message\": \"a\x7bb\"\x7d")) :=
  ⟨rfl, rfl, rfl⟩

/-- C2 (code bug): a cancellation requested before process exit does not end
in a silent cancelled state — the promise rejects with
`Operation was cancelled`, the rejection bypasses the dead
`isCancellationRequested` early-return and reaches the outer catch, and an
error-level notice is shown, the same treatment a failure receives. -/
theorem C2_cancellation_error_notice :
    generateCommitMessage ⟨some "KEY", none, none, none, none⟩
        ⟨true, "/repo", "/ext", false, 0, true, 0, "", ""⟩ =
      [Effect.spawnProcess "python"
        ["/ext/py/commit_generator.py", "/repo", "--api-key", "KEY",
         "--model", "gemini-1.5-flash", "--temperature", "0.3",
         "--max-tokens", "100", "--json"],
       Effect.notice (Notice.error
         "Failed to generate commit message: Operation was cancelled")] :=
  rfl

/-- C3: on any non-zero exit code the controller rejects with a failure
carrying the exit code and the full captured stderr; the outcome does not
depend on the captured stdout, so no JSON parsing is ever attempted. -/
theorem C3_nonzero_exit (code : Int) (stdout stderr : String) (h : code ≠ 0) :
    runPythonScriptClose code stdout stderr =
      Except.error (ScriptError.nonZeroExit code stderr) ∧
    (ScriptError.nonZeroExit code stderr).message =
      "Python script failed with code " ++ toString code ++ ": " ++ stderr :=
  ⟨by rw [runPythonScriptClose, if_neg h], rfl⟩

/-- C3 witness: exit code 1 with stderr `ModuleNotFoundError`. -/
theorem C3_nonzero_exit_witness :
    runPythonScriptClose 1 "\x7b\"success\": true\x7d" "ModuleNotFoundError" =
      Except.error (ScriptError.nonZeroExit 1 "ModuleNotFoundError") ∧
    (ScriptError.nonZeroExit 1 "ModuleNotFoundError").message =
      "Python script failed with code 1: ModuleNotFoundError" := by
  have h := C3_nonzero_exit 1 "\x7b\"success\": true\x7d" "ModuleNotFoundError" (by decide)
  exact ⟨h.1, h.2.trans (by decide)⟩

/-- C4: with a workspace open, an absent (or empty, also falsy) credential
short-circuits the invocation into a single user-facing error notice, and a
process spawn can only ever occur with a present, non-empty credential. -/
theorem C4_missing_key_short_circuit (cfg : ExtConfig) (env : InvocationEnv)
    (hws : env.hasWorkspaceFolder = true) :
    ((cfg.googleApiKey = none ∨ cfg.googleApiKey = some "") →
      generateCommitMessage cfg env =
        [Effect.notice (Notice.error
          "Google AI API Key is not configured. Please set it in settings.")]) ∧
    (∀ cmd args, Effect.spawnProcess cmd args ∈ generateCommitMessage cfg env →
      ∃ k, cfg.googleApiKey = some k ∧ k ≠ "") := by
  constructor
  · rintro (hk | hk) <;> simp [generateCommitMessage, hws, hk]
  · intro cmd args hmem
    rcases hcfg : cfg.googleApiKey with _ | k
    · rw [generateCommitMessage, hws] at hmem
      simp [hcfg] at hmem
    · by_cases hk : k = ""
      · rw [generateCommitMessage, hws] at hmem
        simp [hcfg, hk] at hmem
      · exact ⟨k, rfl, hk⟩

/-- C4 witness: an unset key with a workspace open yields exactly the
configuration notice and nothing else. -/
theorem C4_missing_key_witness :
    generateCommitMessage ⟨none, none, none, none, none⟩
        ⟨true, "/repo", "/ext", false, 0, false, 0, "", ""⟩ =
      [Effect.notice (Notice.error
        "Google AI API Key is not configured. Please set it in settings.")] :=
  (C4_missing_key_short_circuit ⟨none, none, none, none, none⟩
    ⟨true, "/repo", "/ext", false, 0, false, 0, "", ""⟩ rfl).1 (Or.inl rfl)

/-- C7: a clean exit whose extracted stdout suffix fails to parse rejects
with a parse-failure outcome that carries the captured stdout, and that
outcome is distinct from every non-zero-exit failure outcome. -/
theorem C7_parse_failure (stdout stderr : String)
    (hp : jsonParse (extractJsonPart stdout) = none) :
    runPythonScriptClose 0 stdout stderr =
      Except.error (ScriptError.parseFailure stdout) ∧
    (ScriptError.parseFailure stdout).message =
      "Failed to parse Python script output: " ++ stdout ∧
    (∀ (code : Int) (err : String),
      ScriptError.parseFailure stdout ≠ ScriptError.nonZeroExit code err) := by
  refine ⟨?_, rfl, ?_⟩
  · rw [runPythonScriptClose, if_pos rfl, hp]
  · intro code err h
    exact ScriptError.noConfusion h

/-- C7 witness: stdout `oops` has no brace, the whole capture is taken and
fails to parse, and the run rejects with the parse-failure outcome. -/
theorem C7_parse_failure_witness :
    runPythonScriptClose 0 "oops" "" =
      Except.error (ScriptError.parseFailure "oops") ∧
    (ScriptError.parseFailure "oops").message =
      "Failed to parse Python script output: oops" := by
  have h := C7_parse_failure "oops" "" rfl
  exact ⟨h.1, h.2.1.trans (by decide)⟩

/-- Settlement of an uncancelled run that exits cleanly with parseable
output: the promise resolves with the parsed value. -/
theorem outcome_ok (env : InvocationEnv) (v : Json)
    (hnc : env.cancelledBeforeExit = false) (hexit : env.exitCode = 0)
    (hparse : jsonParse (extractJsonPart env.stdout) = some v) :
    runPythonScriptOutcome env.cancelledBeforeExit env.exitCode env.stdout env.stderr =
      Except.ok v := by
  rw [runPythonScriptOutcome, hnc, if_neg Bool.false_ne_true, hexit,
    runPythonScriptClose, if_pos rfl, hparse]

/-- Settlement of an uncancelled run that exits with a non-zero code: the
promise rejects with the exit code and captured stderr. -/
theorem outcome_nonzero (env : InvocationEnv)
    (hnc : env.cancelledBeforeExit = false) (hne : env.exitCode ≠ 0) :
    runPythonScriptOutcome env.cancelledBeforeExit env.exitCode env.stdout env.stderr =
      Except.error (ScriptError.nonZeroExit env.exitCode env.stderr) := by
  rw [runPythonScriptOutcome, hnc, if_neg Bool.false_ne_true,
    runPythonScriptClose, if_neg hne]

/-- C5 (amended): only failures delivered as a parsed Result (clean exit,
non-null result, failure branch, and an error text on which the inspection
does not itself throw) run the `No changes detected` inspection — present
means a warning-severity notice, absent means an error-severity notice
carrying the raw error text; failures delivered as promise rejections
(non-zero exit here) are surfaced by the outer catch at error severity
without the inspection. -/
theorem C5_failure_notices (cfg : ExtConfig) (env : InvocationEnv) (k : String)
    (hws : env.hasWorkspaceFolder = true)
    (hkey : cfg.googleApiKey = some k) (hk : k ≠ "")
    (hnc : env.cancelledBeforeExit = false) :
    (∀ (v : Json) (n : Notice), env.exitCode = 0 →
      jsonParse (extractJsonPart env.stdout) = some v →
      v.isNull = false →
      (truthy (CommitResult.ofJson v).success &&
        truthy (CommitResult.ofJson v).commit_message) = false →
      failureNotice (CommitResult.ofJson v).error = Except.ok n →
      generateCommitMessage cfg env =
        [Effect.spawnProcess (jsOrString cfg.pythonPath "python") (buildArgs cfg env k),
         Effect.notice n]) ∧
    (∀ s : String,
      (strIncludes s "No changes detected" = true →
        failureNotice (some (Json.str s)) =
          Except.ok (Notice.warning "No changes detected to generate commit message.")) ∧
      (s ≠ "" → strIncludes s "No changes detected" = false →
        failureNotice (some (Json.str s)) =
          Except.ok (Notice.error ("Error: " ++ s)))) ∧
    (env.exitCode ≠ 0 →
      generateCommitMessage cfg env =
        [Effect.spawnProcess (jsOrString cfg.pythonPath "python") (buildArgs cfg env k),
         Effect.notice (Notice.error ("Failed to generate commit message: " ++
           (ScriptError.nonZeroExit env.exitCode env.stderr).message))]) := by
  refine ⟨?_, ?_, ?_⟩
  · intro v n hexit hparse hvn hfail hfn
    rw [generateCommitMessage_run cfg env k hws hkey hk, outcome_ok env v hnc hexit hparse]
    simp [outcomeEffects, dispatchEffects, hvn, hfail, hfn]
  · intro s
    constructor
    · intro hinc
      have hs : s ≠ "" := by
        intro e
        rw [e] at hinc
        exact absurd hinc (by decide)
      simp [failureNotice, truthy, hs, hinc]
    · intro hs hinc
      simp [failureNotice, truthy, hs, hinc]
  · intro hne
    rw [generateCommitMessage_run cfg env k hws hkey hk, outcome_nonzero env hnc hne]
    rfl

/-- C5 witness: a Result failure whose error text contains the substring is
surfaced at warning severity. -/
theorem C5_failure_notices_witness :
    failureNotice (some (Json.str "No changes detected in repository")) =
      Except.ok (Notice.warning "No changes detected to generate commit message.") :=
  ((C5_failure_notices ⟨some "KEY", none, none, none, none⟩
      ⟨true, "/repo", "/ext", false, 0, false, 0, "", ""⟩ "KEY"
      rfl rfl (by decide) rfl).2.1 "No changes detected in repository").1 rfl

/-- C5 counterexample: the claim as stated quantifies over every failed
invocation, but a non-zero-exit failure whose stderr contains
`No changes detected` is surfaced by the outer catch at error severity —
the warning downgrade never runs on rejected runs. -/
theorem C5_counterexample :
    generateCommitMessage ⟨some "KEY", none, none, none, none⟩
        ⟨true, "/repo", "/ext", false, 0, false, 1, "",
          "No changes detected in repository"⟩ =
      [Effect.spawnProcess "python"
        ["/ext/py/commit_generator.py", "/repo", "--api-key", "KEY",
         "--model", "gemini-1.5-flash", "--temperature", "0.3",
         "--max-tokens", "100", "--json"],
       Effect.notice (Notice.error
         "Failed to generate commit message: Python script failed with code 1: No changes detected in repository")] ∧
    strIncludes
      "Python script failed with code 1: No changes detected in repository"
      "No changes detected" = true :=
  ⟨rfl, rfl⟩

/-- C6: on a successful Result carrying a non-empty commit message, the
message is written into the pending-commit input box when the git API is
available with at least one repository, and otherwise copied to the
clipboard with a notification whose text indicates the clipboard path. -/
theorem C6_success_routing (cfg : ExtConfig) (env : InvocationEnv) (k : String)
    (v : Json) (m : String)
    (hws : env.hasWorkspaceFolder = true)
    (hkey : cfg.googleApiKey = some k) (hk : k ≠ "")
    (hnc : env.cancelledBeforeExit = false) (hexit : env.exitCode = 0)
    (hparse : jsonParse (extractJsonPart env.stdout) = some v)
    (hsuc : truthy (CommitResult.ofJson v).success = true)
    (hmsg : (CommitResult.ofJson v).commit_message = some (Json.str m))
    (hm : m ≠ "") :
    generateCommitMessage cfg env =
      Effect.spawnProcess (jsOrString cfg.pythonPath "python") (buildArgs cfg env k) ::
        successEffects env m ∧
    (env.gitApiAvailable = true → 0 < env.repoCount →
      successEffects env m =
        [Effect.setCommitInput m,
         Effect.notice (Notice.info ("Generated: \"" ++ m ++ "\""))]) ∧
    (env.gitApiAvailable = false ∨ env.repoCount = 0 →
      successEffects env m =
        [Effect.copyClipboard m,
         Effect.notice (Notice.info ("Generated (copied to clipboard): \"" ++ m ++ "\""))] ∧
      strIncludes ("Generated (copied to clipboard): \"" ++ m ++ "\"")
        "copied to clipboard" = true) := by
  refine ⟨?_, ?_, ?_⟩
  · rw [generateCommitMessage_run cfg env k hws hkey hk, outcome_ok env v hnc hexit hparse]
    have hvn : v.isNull = false := by
      cases v <;> first | rfl | exact absurd hsuc (by decide)
    have hmt : truthy (CommitResult.ofJson v).commit_message = true := by
      rw [hmsg]
      show (if m = "" then false else true) = true
      rw [if_neg hm]
    have hdisp : jsDisplay ((CommitResult.ofJson v).commit_message.getD Json.null) = m := by
      rw [hmsg]
      rfl
    simp [outcomeEffects, dispatchEffects, hvn, hsuc, hmt, hdisp]
  · intro hg hr
    rw [successEffects, if_pos ⟨hg, hr⟩]
  · intro h
    constructor
    · rw [successEffects, if_neg]
      rintro ⟨hg', hr'⟩
      rcases h with h | h
      · rw [h] at hg'
        exact Bool.false_ne_true hg'
      · omega
    · exact strIncludes_append_left _ "\"" _
        (strIncludes_append_left "Generated (copied to clipboard): \"" m _ (by decide))

/-- C6 witness: the success payload with no repository available goes to the
clipboard and the notification says so. -/
theorem C6_success_routing_witness :
    generateCommitMessage ⟨some "KEY", none, none, none, none⟩
        ⟨true, "/repo", "/ext", false, 0, false, 0,
          "\x7b\"success\": true, \"commit_message\": \"feat: add parser\"\x7d", ""⟩ =
      [Effect.spawnProcess "python"
        ["/ext/py/commit_generator.py", "/repo", "--api-key", "KEY",
         "--model", "gemini-1.5-flash", "--temperature", "0.3",
         "--max-tokens", "100", "--json"],
       Effect.copyClipboard "feat: add parser",
       Effect.notice (Notice.info
         "Generated (copied to clipboard): \"feat: add parser\"")] := by
  have h := C6_success_routing ⟨some "KEY", none, none, none, none⟩
    ⟨true, "/repo", "/ext", false, 0, false, 0,
      "\x7b\"success\": true, \"commit_message\": \"feat: add parser\"\x7d", ""⟩
    "KEY"
    (Json.obj [("success", Json.bool true), ("commit_message", Json.str "feat: add parser")])
    "feat: add parser" rfl rfl (by decide) rfl rfl rfl rfl rfl (by decide)
  rw [h.1, (h.2.2 (Or.inl rfl)).1]
  rfl

/-- C8: every fully preflighted invocation spawns the generator with the
script path and the repository path as the two positional arguments, then
the named credential, model, temperature and max-tokens arguments, then the
machine-readable output flag. -/
theorem C8_invocation_args (cfg : ExtConfig) (env : InvocationEnv) (k : String)
    (hws : env.hasWorkspaceFolder = true)
    (hkey : cfg.googleApiKey = some k) (hk : k ≠ "") :
    (∃ rest, generateCommitMessage cfg env =
      Effect.spawnProcess (jsOrString cfg.pythonPath "python") (buildArgs cfg env k) :: rest) ∧
    buildArgs cfg env k =
      [env.extensionPath ++ "/py/commit_generator.py",
       env.workspacePath,
       "--api-key", k,
       "--model", jsOrString cfg.model "gemini-1.5-flash",
       "--temperature", decStr (jsOrNum cfg.temperature (mkRat 3 10)),
       "--max-tokens", decStr (jsOrNum cfg.maxTokens 100),
       "--json"] :=
  ⟨⟨_, generateCommitMessage_run cfg env k hws hkey hk⟩, rfl⟩

/-- C8 witness: a concrete invocation spawns with exactly the built argument
vector. -/
theorem C8_invocation_args_witness :
    ∃ rest, generateCommitMessage ⟨some "KEY", none, none, none, none⟩
        ⟨true, "/repo", "/ext", false, 0, false, 0, "", ""⟩ =
      Effect.spawnProcess "python"
        ["/ext/py/commit_generator.py", "/repo", "--api-key", "KEY",
         "--model", "gemini-1.5-flash", "--temperature", "0.3",
         "--max-tokens", "100", "--json"] :: rest :=
  (C8_invocation_args ⟨some "KEY", none, none, none, none⟩
    ⟨true, "/repo", "/ext", false, 0, false, 0, "", ""⟩ "KEY" rfl rfl (by decide)).1

/-- C10: falsy configured settings are replaced by the built-in defaults
before reaching the process — an invocation configured with empty-string
python path, empty-string model, temperature `0` and max-tokens `0` behaves
exactly like one with the settings unset, spawning `python` with
`--temperature 0.3` and `--max-tokens 100`. -/
theorem C10_falsy_defaults (k : String) (hk : k ≠ "") (env : InvocationEnv)
    (hws : env.hasWorkspaceFolder = true) :
    generateCommitMessage ⟨some k, some "", some "", some 0, some 0⟩ env =
      generateCommitMessage ⟨some k, none, none, none, none⟩ env ∧
    (∃ rest, generateCommitMessage ⟨some k, some "", some "", some 0, some 0⟩ env =
      Effect.spawnProcess "python"
        [env.extensionPath ++ "/py/commit_generator.py", env.workspacePath,
         "--api-key", k, "--model", "gemini-1.5-flash",
         "--temperature", "0.3", "--max-tokens", "100", "--json"] :: rest) := by
  have h1 := generateCommitMessage_run ⟨some k, some "", some "", some 0, some 0⟩ env k hws rfl hk
  have h2 := generateCommitMessage_run ⟨some k, none, none, none, none⟩ env k hws rfl hk
  have ht : jsOrNum ((⟨some k, some "", some "", some 0, some 0⟩ : ExtConfig)).temperature
      (mkRat 3 10) = mkRat 3 10 := rfl
  have hmx : jsOrNum ((⟨some k, some "", some "", some 0, some 0⟩ : ExtConfig)).maxTokens
      100 = 100 := rfl
  have hargs : buildArgs ⟨some k, some "", some "", some 0, some 0⟩ env k =
      [env.extensionPath ++ "/py/commit_generator.py", env.workspacePath,
       "--api-key", k, "--model", "gemini-1.5-flash",
       "--temperature", "0.3", "--max-tokens", "100", "--json"] := by
    rw [buildArgs, ht, hmx]
    exact rfl
  have ht2 : jsOrNum ((⟨some k, none, none, none, none⟩ : ExtConfig)).temperature
      (mkRat 3 10) = mkRat 3 10 := rfl
  have hmx2 : jsOrNum ((⟨some k, none, none, none, none⟩ : ExtConfig)).maxTokens
      100 = 100 := rfl
  have hargs2 : buildArgs ⟨some k, none, none, none, none⟩ env k =
      [env.extensionPath ++ "/py/commit_generator.py", env.workspacePath,
       "--api-key", k, "--model", "gemini-1.5-flash",
       "--temperature", "0.3", "--max-tokens", "100", "--json"] := by
    rw [buildArgs, ht2, hmx2]
    exact rfl
  constructor
  · rw [h1, h2, hargs, hargs2]
    exact rfl
  · refine ⟨outcomeEffects env
      (runPythonScriptOutcome env.cancelledBeforeExit env.exitCode env.stdout env.stderr), ?_⟩
    rw [h1, hargs]
    exact rfl

/-- C10 witness: the falsy-settings invocation evaluated concretely. -/
theorem C10_falsy_defaults_witness :
    generateCommitMessage ⟨some "KEY", some "", some "", some 0, some 0⟩
        ⟨true, "/repo", "/ext", false, 0, false, 0, "", ""⟩ =
      generateCommitMessage ⟨some "KEY", none, none, none, none⟩
        ⟨true, "/repo", "/ext", false, 0, false, 0, "", ""⟩ ∧
    (∃ rest, generateCommitMessage ⟨some "KEY", some "", some "", some 0, some 0⟩
        ⟨true, "/repo", "/ext", false, 0, false, 0, "", ""⟩ =
      Effect.spawnProcess "python"
        ["/ext/py/commit_generator.py", "/repo",
         "--api-key", "KEY", "--model", "gemini-1.5-flash",
         "--temperature", "0.3", "--max-tokens", "100", "--json"] :: rest) :=
  C10_falsy_defaults "KEY" (by decide)
    ⟨true, "/repo", "/ext", false, 0, false, 0, "", ""⟩ rfl

end GitCommiter
